import Mathlib

/-!
Verification of the LOCO RAG Engine core (backend code as given in
src/docs/product_documentation.md: semantic_chunking in processor.py,
LocoEngine.query / LocoEngine.ingest / hybrid_query in engine.py).

Modelling conventions:
* Python strings are modelled as List Char; Python float values as real
  numbers (embedding vectors, similarities, thresholds) or as rationals
  (store-reported distances and reference scores, which are opaque inputs).
* External collaborators (Ollama embeddings and generation, the LanceDB
  search calls) are oracles passed in as function-valued environment fields.
* The chunker threshold, hardcoded to 0.7 in processor.py and documented as
  a parameter defaulting to 0.7 in docs/development.md, is a parameter here.
-/

/-! Semantic chunker: backend/core/processor.py. -/

/-- Python text.split with separator dot-space, accumulator form.
The accumulator holds the current unit reversed. -/
def splitDotSpaceAux : List Char → List Char → List (List Char)
  | cur, [] => [cur.reverse]
  | cur, '.' :: ' ' :: rest => cur.reverse :: splitDotSpaceAux [] rest
  | cur, c :: rest => splitDotSpaceAux (c :: cur) rest

/-- Python text.split on the two-character separator dot-space:
leftmost non-overlapping occurrences, never returns an empty list. -/
def splitDotSpace (text : List Char) : List (List Char) :=
  splitDotSpaceAux [] text

/-- Whether the two-character separator dot-space occurs in the text. -/
def hasDotSpace : List Char → Bool
  | [] => false
  | '.' :: ' ' :: _ => true
  | _ :: rest => hasDotSpace rest

/-- The join separator used by the chunker when emitting a chunk. -/
def dotSpace : List Char := ['.', ' ']

/-- Python join with the dot-space separator. -/
def joinDotSpace (units : List (List Char)) : List Char :=
  List.intercalate dotSpace units

/-- Dot product of two vectors, truncating to the shorter length
(embedding vectors always have equal length in practice). -/
def dotList (u v : List ℝ) : ℝ :=
  (List.zipWith (fun a b => a * b) u v).sum

/-- Cosine similarity as computed by sklearn cosine_similarity on two row
vectors; a zero vector yields similarity 0. -/
noncomputable def cosineSim (u v : List ℝ) : ℝ :=
  if dotList u u = 0 ∨ dotList v v = 0 then 0
  else dotList u v / (Real.sqrt (dotList u u) * Real.sqrt (dotList v v))

/-- The chunk-grouping loop of semantic_chunking. The pairs list carries,
for each sentence after the first, the sentence together with the cosine
similarity between it and its predecessor. A similarity strictly below the
threshold closes the current chunk; the final open chunk is emitted after
the loop. -/
noncomputable def groupRec (thr : ℝ) (cur : List (List Char)) :
    List (List Char × ℝ) → List (List (List Char))
  | [] => [cur]
  | (s, sim) :: rest =>
      if sim < thr then cur :: groupRec thr [s] rest
      else groupRec thr (cur ++ [s]) rest

/-- Chunk grouping seeded with the first sentence, as in the source:
current_chunk starts as the singleton of sentences[0]. -/
noncomputable def semanticGroups (thr : ℝ) (sentences : List (List Char))
    (sims : List ℝ) : List (List (List Char)) :=
  match sentences with
  | [] => []
  | s :: rest => groupRec thr [s] (rest.zip sims)

/-- The consecutive-sentence similarity list computed by semantic_chunking:
embeddings of all units, then cosine similarity of each adjacent pair. -/
noncomputable def simsOf (text : List Char) (embed : List Char → List ℝ) : List ℝ :=
  let embs := (splitDotSpace text).map embed
  (embs.zip embs.tail).map (fun p => cosineSim p.1 p.2)

/-- The chunk groups produced by semantic_chunking before joining. -/
noncomputable def semanticGroupsOf (text : List Char)
    (embed : List Char → List ℝ) (thr : ℝ) : List (List (List Char)) :=
  semanticGroups thr (splitDotSpace text) (simsOf text embed)

/-- semantic_chunking from backend/core/processor.py: split into sentence
units on dot-space, embed every unit, walk consecutive cosine similarities
closing a chunk whenever the similarity drops below the threshold, join each
chunk back with dot-space, and emit the final open chunk unconditionally. -/
noncomputable def semantic_chunking (text : List Char)
    (embed : List Char → List ℝ) (thr : ℝ) : List (List Char) :=
  (semanticGroupsOf text embed thr).map joinDotSpace

/-! LOCO engine: backend/core/engine.py. -/

/-- One row of the doc_store table: schema vector, text, source, page. -/
structure ChunkRecord where
  vector : List ℝ
  text : List Char
  source : String
  page : ℕ

/-- The doc_store LanceDB table contents, in insertion order. -/
abbrev DocTable := List ChunkRecord

/-- The LanceDB database: the doc_store table is absent (none) until the
first ingest creates it, mirroring the create-if-missing logic in ingest. -/
structure Store where
  table : Option DocTable

/-- One entry of table.search(...).to_list(): text and source of the chunk,
plus the distance column reported by LanceDB. -/
structure SearchResult where
  text : List Char
  source : String
  distance : ℚ

/-- One reference of the query response: source, snippet, score. -/
structure Reference where
  source : String
  snippet : List Char
  score : ℚ

/-- The value returned by LocoEngine.query: answer plus references. -/
structure QueryResponse where
  answer : String
  references : List Reference

/-- The argument record of an ollama.generate call: exactly the keyword
arguments the source passes (model, prompt, stream). No temperature option
is passed anywhere in the source. -/
structure GenRequest where
  model : String
  prompt : List Char
  stream : Bool

/-- External collaborators of the query path: ollama.embeddings, the LanceDB
vector search, the LanceDB hybrid search, and ollama.generate. -/
structure QueryEnv where
  embeddings : List Char → List ℝ
  search : DocTable → List ℝ → ℕ → List SearchResult
  hybridSearch : DocTable → List Char → ℕ → List SearchResult
  generate : GenRequest → String

/-- Failure of db.open_table when the doc_store table does not exist. -/
inductive EngineError where
  | tableNotFound
deriving DecidableEq

/-- db.open_table: raises when the table has never been created. -/
def open_table (s : Store) : Except EngineError DocTable :=
  match s.table with
  | none => Except.error EngineError.tableNotFound
  | some t => Except.ok t

/-- The separator placed between chunk texts in the context block. -/
def contextSep : List Char := ("\n---\n").toList

/-- The prompt built by LocoEngine.query, with the context block and the
question spliced into the f-string literal of the source. -/
def buildPrompt (context question : List Char) : List Char :=
  ("Use the provided context to answer the question. \n        If the answer is not in the context, say you don\x27t know. \n        Provide citations like [Source: filename].\n        \n        Context: ").toList
    ++ context
    ++ ("\n        Question: ").toList ++ question ++ ("\n        ").toList

/-- The single ollama.generate argument record built by LocoEngine.query
for a given search result list and user input: the model name is the string
literal llama3.2 taken from the source, and stream is false. -/
def genRequestOf (results : List SearchResult) (user_input : List Char) :
    GenRequest :=
  { model := "llama3.2",
    prompt := buildPrompt (List.intercalate contextSep (results.map (fun r => r.text))) user_input,
    stream := false }

/-- LocoEngine.query: open the table (raising if absent), embed the input,
run the vector search, build the context and prompt, call ollama.generate,
and return the answer together with one reference per search result, the
snippet being the first 150 characters of the chunk text and the score the
raw distance column. -/
def query (env : QueryEnv) (s : Store) (user_input : List Char)
    (top_k : ℕ) : Except EngineError QueryResponse :=
  match open_table s with
  | Except.error e => Except.error e
  | Except.ok table =>
      let query_vec := env.embeddings user_input
      let results := env.search table query_vec top_k
      let req := genRequestOf results user_input
      Except.ok
        { answer := env.generate req,
          references := results.map (fun r =>
            { source := r.source, snippet := r.text.take 150, score := r.distance }) }

/-- The list of ollama.generate invocations performed by one run of
LocoEngine.query: none when open_table raises, exactly one otherwise. -/
def queryGenRequests (env : QueryEnv) (s : Store) (user_input : List Char)
    (top_k : ℕ) : List GenRequest :=
  match open_table s with
  | Except.error _ => []
  | Except.ok table =>
      [genRequestOf (env.search table (env.embeddings user_input) top_k) user_input]

/-- The references of a successful query, empty on failure. -/
def queryReferences (env : QueryEnv) (s : Store) (user_input : List Char)
    (top_k : ℕ) : List Reference :=
  match query env s user_input top_k with
  | Except.ok r => r.references
  | Except.error _ => []

/-- The answer of a successful query, empty on failure. -/
def queryAnswer (env : QueryEnv) (s : Store) (user_input : List Char)
    (top_k : ℕ) : String :=
  match query env s user_input top_k with
  | Except.ok r => r.answer
  | Except.error _ => ""

/-- hybrid_query from the source: opens the table and delegates the whole
hybrid combination to the store library call with limit 3; no merging or
normalization is performed in the repository code. -/
def hybrid_query (env : QueryEnv) (s : Store) (text : List Char) :
    Except EngineError (List SearchResult) :=
  match open_table s with
  | Except.error e => Except.error e
  | Except.ok table => Except.ok (env.hybridSearch table text 3)

/-- Failures that can interrupt an ingest run. -/
inductive IngestError where
  | embedFailed
  | storeWriteFailed
deriving DecidableEq

/-- Collaborators of the ingest path: the embedding call (which can fail)
and whether the single LanceDB create_table or add call succeeds. That call
commits the whole per-document batch or nothing, being one library call. -/
structure IngestEnv where
  embed : List Char → Except IngestError (List ℝ)
  writeOk : Bool

/-- The data list built by the loop of LocoEngine.ingest: one record per
chunk, embedding each chunk text in order; an embedding failure aborts the
whole run before anything is written. -/
def buildData (env : IngestEnv) (filename : String) (page : ℕ) :
    List (List Char) → Except IngestError (List ChunkRecord)
  | [] => Except.ok []
  | chunk :: rest =>
      match env.embed chunk with
      | Except.error e => Except.error e
      | Except.ok v =>
          match buildData env filename page rest with
          | Except.error e => Except.error e
          | Except.ok data =>
              Except.ok ({ vector := v, text := chunk, source := filename,
                           page := page } :: data)

/-- LocoEngine.ingest: build the full data list in memory (calling the
embedding gateway once per chunk), then perform the single create_table or
add call; returns the store after the run and the failure, if any. On any
failure the input store is returned unchanged, because no store call is made
before the data list is complete and the single write is atomic. -/
def ingest (env : IngestEnv) (s : Store) (chunks : List (List Char))
    (filename : String) (page : ℕ) : Store × Option IngestError :=
  match buildData env filename page chunks with
  | Except.error e => (s, some e)
  | Except.ok data =>
      if env.writeOk then
        match s.table with
        | none => ({ table := some data }, none)
        | some t => ({ table := some (t ++ data) }, none)
      else (s, some IngestError.storeWriteFailed)

/-- The full ingestion path for one document: semantic chunking of the raw
text followed by LocoEngine.ingest, page defaulting to 0 as in the source. -/
noncomputable def ingestDocument (cembed : List Char → List ℝ) (thr : ℝ)
    (env : IngestEnv) (s : Store) (raw : List Char) (filename : String) :
    Store × Option IngestError :=
  ingest env s (semantic_chunking raw cembed thr) filename 0

/-- Number of chunks queryable in the store. -/
def chunkCount (s : Store) : ℕ :=
  match s.table with
  | none => 0
  | some t => t.length

/-! Spec-side retrieval merge, for comparison with the code. Modelled from
the spec wording of the hybrid retriever, section 4.3: merge a vector
candidate list and a lexical candidate list by chunk identity, after
independently min-max normalizing each list (a zero-range list treated as
already normalized); a chunk in both lists gets the equal-weight sum, a
chunk in one list keeps its single score; sort by combined score descending
with ties broken by original vector rank then chunk id; truncate to
top_k. -/

/-- A scored candidate of one retrieval list, identified by chunk id. -/
structure ScoredCand where
  id : String
  score : ℚ
deriving DecidableEq

/-- Smaller of two rational scores. -/
def qmin (a b : ℚ) : ℚ := if a ≤ b then a else b

/-- Larger of two rational scores. -/
def qmax (a b : ℚ) : ℚ := if b ≤ a then a else b

/-- Min-max normalization of one score list to the unit interval; when the
list has zero range it is treated as already normalized. -/
def minMaxNorm (l : List ScoredCand) : List ScoredCand :=
  match l with
  | [] => []
  | c :: _ =>
      let lo := (l.map (fun d => d.score)).foldr qmin c.score
      let hi := (l.map (fun d => d.score)).foldr qmax c.score
      if hi = lo then l
      else l.map (fun d => { d with score := (d.score - lo) / (hi - lo) })

/-- Rank of a chunk id in the original vector list; absent ids rank after
every present id. -/
def rankOf (l : List ScoredCand) (i : String) : ℕ :=
  l.findIdx (fun c => c.id = i)

/-- Score of a chunk id in a list, when present. -/
def lookupScore (l : List ScoredCand) (i : String) : Option ℚ :=
  (l.find? (fun c => c.id = i)).map (fun c => c.score)

/-- Merge by chunk identity after per-list normalization: equal-weight sum
for ids in both lists, the single score otherwise. -/
def mergedCands (vec lex : List ScoredCand) : List (String × ℚ) :=
  let nv := minMaxNorm vec
  let nl := minMaxNorm lex
  let ids := (vec.map (fun c => c.id) ++ lex.map (fun c => c.id)).dedup
  ids.map (fun i =>
    match lookupScore nv i, lookupScore nl i with
    | some a, some b => (i, (1 / 2) * a + (1 / 2) * b)
    | some a, none => (i, a)
    | none, some b => (i, b)
    | none, none => (i, 0))

/-- Ordering of merged candidates: combined score descending, then original
vector rank ascending, then chunk id ascending. -/
def precedes (vec : List ScoredCand) (a b : String × ℚ) : Bool :=
  if a.2 ≠ b.2 then b.2 < a.2
  else if rankOf vec a.1 ≠ rankOf vec b.1 then rankOf vec a.1 < rankOf vec b.1
  else a.1 < b.1

/-- Insertion into a list sorted by the given strict preference. -/
def insertBy (le : α → α → Bool) (a : α) : List α → List α
  | [] => [a]
  | b :: rest => if le a b then a :: b :: rest else b :: insertBy le a rest

/-- Insertion sort by the given preference. -/
def sortBy (le : α → α → Bool) (l : List α) : List α :=
  l.foldr (insertBy le) []

/-- The ranked chunk-id list the spec describes for retrieve: merge the two
candidate lists, sort, truncate to top_k. -/
def retrieveSpec (vec lex : List ScoredCand) (top_k : ℕ) : List String :=
  ((sortBy (precedes vec) (mergedCands vec lex)).map (fun p => p.1)).take top_k

/-! Concrete collaborators and stores used in the closed instance proofs. -/

/-- A store whose doc_store table exists (created by a previous ingest). -/
def storeEmptyTable : Store := ⟨some []⟩

/-- An embedding oracle sending every text to the one-dimensional vector 1. -/
def embedOne : List Char → List ℝ := fun _ => [(1:ℝ)]

/-- Collaborators where the vector search returns exactly one hit labelled A
with distance 1, and the lexical side would offer a chunk labelled B. -/
def envC1 : QueryEnv :=
  ⟨fun _ => [], fun _ _ _ => [⟨("Paris is the capital of France").toList, "A", 1⟩],
    fun _ _ _ => [], fun _ => "ans"⟩

/-- Collaborators where the vector search returns no hits and the generation
service answers with a recognizable output. -/
def envC3 : QueryEnv :=
  ⟨fun _ => [], fun _ _ _ => [], fun _ _ _ => [], fun _ => "GATEWAY OUTPUT"⟩

/-- Collaborators where the vector search returns one hit. -/
def envC7 : QueryEnv :=
  ⟨fun _ => [], fun _ _ _ => [⟨("some text").toList, "doc.pdf", 1⟩],
    fun _ _ _ => [], fun _ => "ans"⟩

/-- Collaborators where the vector search returns two hits at distances 1 and
2, the first being the nearer, more similar chunk. -/
def envC8 : QueryEnv :=
  ⟨fun _ => [], fun _ _ _ =>
      [⟨("chunk one").toList, "s1", 1⟩, ⟨("chunk two").toList, "s2", 2⟩],
    fun _ _ _ => [], fun _ => "ans"⟩

/-- An ingest environment whose embedding call always fails. -/
def envFailEmbed : IngestEnv := ⟨fun _ => Except.error IngestError.embedFailed, true⟩

/-- An ingest environment whose collaborators all succeed. -/
def envOkIngest : IngestEnv := ⟨fun _ => Except.ok [(1:ℝ)], true⟩

/-- An embedding oracle giving the sentence a the vector 1 and every other
sentence the vector negative 1, so consecutive cosine similarity is -1. -/
def embedC9 : List Char → List ℝ := fun s => if s = ['a'] then [(1:ℝ)] else [(-1:ℝ)]

/-! Helper lemmas about the chunker. -/

theorem splitDotSpaceAux_ne_nil (cur cs : List Char) :
    splitDotSpaceAux cur cs ≠ [] := by
  induction cur, cs using splitDotSpaceAux.induct with
  | case1 cur => simp [splitDotSpaceAux]
  | case2 cur rest ih => simp [splitDotSpaceAux]
  | case3 cur c rest h ih =>
      rw [splitDotSpaceAux]
      · exact ih
      · exact h

theorem splitDotSpaceAux_no_sep (cur cs : List Char) (h : hasDotSpace cs = false) :
    splitDotSpaceAux cur cs = [cur.reverse ++ cs] := by
  induction cur, cs using splitDotSpaceAux.induct with
  | case1 cur => simp [splitDotSpaceAux]
  | case2 cur rest ih => simp [hasDotSpace] at h
  | case3 cur c rest hc ih =>
      rw [hasDotSpace] at h
      · rw [splitDotSpaceAux]
        · rw [ih h]
          simp
        · exact hc
      · exact hc

theorem splitDotSpace_ne_nil (text : List Char) : splitDotSpace text ≠ [] :=
  splitDotSpaceAux_ne_nil [] text

theorem splitDotSpace_no_sep (text : List Char) (h : hasDotSpace text = false) :
    splitDotSpace text = [text] := by
  rw [splitDotSpace, splitDotSpaceAux_no_sep [] text h]
  simp

theorem groupRec_ne_nil (thr : ℝ) (cur : List (List Char))
    (pairs : List (List Char × ℝ)) : groupRec thr cur pairs ≠ [] := by
  induction pairs generalizing cur with
  | nil => simp [groupRec]
  | cons p rest ih =>
      obtain ⟨s, sim⟩ := p
      by_cases hs : sim < thr
      · simp [groupRec, hs]
      · simp [groupRec, hs, ih]

theorem groupRec_flatten (thr : ℝ) (cur : List (List Char))
    (pairs : List (List Char × ℝ)) :
    (groupRec thr cur pairs).flatten = cur ++ pairs.map Prod.fst := by
  induction pairs generalizing cur with
  | nil => simp [groupRec]
  | cons p rest ih =>
      obtain ⟨s, sim⟩ := p
      by_cases hs : sim < thr
      · simp [groupRec, hs, ih]
      · simp [groupRec, hs, ih]

theorem groupRec_length (thr : ℝ) (cur : List (List Char))
    (pairs : List (List Char × ℝ)) :
    (groupRec thr cur pairs).length
      = 1 + pairs.countP (fun p => decide (p.2 < thr)) := by
  induction pairs generalizing cur with
  | nil => simp [groupRec]
  | cons p rest ih =>
      obtain ⟨s, sim⟩ := p
      by_cases hs : sim < thr
      · simp [groupRec, hs, ih, List.countP_cons]
        omega
      · simp [groupRec, hs, ih, List.countP_cons]

theorem simsOf_length (text : List Char) (embed : List Char → List ℝ) :
    (simsOf text embed).length = (splitDotSpace text).length - 1 := by
  simp [simsOf]

theorem chunking_length (text : List Char) (embed : List Char → List ℝ) (thr : ℝ) :
    (semantic_chunking text embed thr).length
      = 1 + ((splitDotSpace text).tail.zip (simsOf text embed)).countP
          (fun p => decide (p.2 < thr)) := by
  obtain ⟨s, rest, hsr⟩ := List.exists_cons_of_ne_nil (splitDotSpace_ne_nil text)
  simp only [semantic_chunking, semanticGroupsOf, semanticGroups, hsr, List.length_map,
    List.tail_cons]
  rw [groupRec_length]

theorem cosine_opposite : cosineSim [(1:ℝ)] [(-1:ℝ)] = -1 := by
  have h1 : dotList [(1:ℝ)] [(1:ℝ)] = 1 := by simp [dotList]
  have h2 : dotList [(-1:ℝ)] [(-1:ℝ)] = 1 := by simp [dotList]
  have h3 : dotList [(1:ℝ)] [(-1:ℝ)] = -1 := by simp [dotList]
  rw [cosineSim, h1, h2, h3, if_neg (by norm_num), Real.sqrt_one]
  norm_num

/-! Claim theorems. -/

/-- C1 (amended): the ranked result of LocoEngine.query is exactly the
vector-search candidate list in store order, each hit keeping its raw
distance as score; no lexical candidate list is consulted and no
normalization or weighted merging is performed in the repository code, and
hybrid_query delegates any vector-plus-keyword combination entirely to the
store library call. -/
theorem query_ranks_by_vector_search_only (env : QueryEnv) (s : Store)
    (user_input : List Char) (top_k : ℕ) (tbl : DocTable)
    (h : s.table = some tbl) :
    queryReferences env s user_input top_k
        = (env.search tbl (env.embeddings user_input) top_k).map
            (fun r => { source := r.source, snippet := r.text.take 150, score := r.distance }) ∧
    hybrid_query env s user_input = Except.ok (env.hybridSearch tbl user_input 3) := by
  constructor <;> simp [queryReferences, query, hybrid_query, open_table, h]

/-- C1 witness: the amended statement at concrete collaborators. -/
theorem query_ranks_by_vector_search_only_witness :
    queryReferences envC1 storeEmptyTable (("q").toList) 3
        = (envC1.search [] (envC1.embeddings (("q").toList)) 3).map
            (fun r => { source := r.source, snippet := r.text.take 150, score := r.distance }) ∧
    hybrid_query envC1 storeEmptyTable (("q").toList)
        = Except.ok (envC1.hybridSearch [] (("q").toList) 3) :=
  query_ranks_by_vector_search_only envC1 storeEmptyTable (("q").toList) 3 [] rfl

/-- C1 counterexample: with a vector list containing only chunk A and a
lexical list containing only chunk B, the merge described by the claim
ranks B into the result, but the ranked result the code produces for the
same vector candidates contains no B: query never merges a lexical list. -/
theorem hybrid_merge_counterexample :
    "B" ∈ retrieveSpec [⟨"A", 1⟩] [⟨"B", 5⟩] 3 ∧
    (queryReferences envC1 storeEmptyTable (("q").toList) 3).map (fun r => r.source)
        = ["A"] ∧
    "B" ∉ (queryReferences envC1 storeEmptyTable (("q").toList) 3).map (fun r => r.source) := by
  refine ⟨by decide, rfl, ?_⟩
  rw [show (queryReferences envC1 storeEmptyTable (("q").toList) 3).map
      (fun r => r.source) = ["A"] from rfl]
  decide

/-- C2: against a store that contains zero chunks the claim promises an
empty result and no error, but the code opens the doc_store table
unconditionally, and on a store where no ingest has ever created the table
(the only way a store has zero chunks, since ingest always writes at least
one record) open_table raises, so query fails with an error for every
question and every top_k. -/
theorem query_empty_store_raises (env : QueryEnv) (user_input : List Char)
    (top_k : ℕ) :
    chunkCount ⟨none⟩ = 0 ∧
    query env ⟨none⟩ user_input top_k = Except.error EngineError.tableNotFound :=
  ⟨rfl, rfl⟩

/-- C3 (amended): when the search returns zero hits the response reference
list is indeed empty, but the Generation Gateway is still invoked, exactly
once, with the prompt built from an empty context block, and its raw output
is returned as the answer; the code never skips generation. -/
theorem empty_hits_still_invokes_generation (env : QueryEnv) (s : Store)
    (user_input : List Char) (top_k : ℕ) (tbl : DocTable)
    (h1 : s.table = some tbl)
    (h2 : env.search tbl (env.embeddings user_input) top_k = []) :
    queryReferences env s user_input top_k = [] ∧
    queryGenRequests env s user_input top_k = [genRequestOf [] user_input] ∧
    queryAnswer env s user_input top_k = env.generate (genRequestOf [] user_input) := by
  simp [queryReferences, queryAnswer, queryGenRequests, query, open_table, h1, h2]

/-- C3 witness: the amended statement at concrete collaborators. -/
theorem empty_hits_generation_witness :
    queryReferences envC3 storeEmptyTable (("q").toList) 3 = [] ∧
    queryGenRequests envC3 storeEmptyTable (("q").toList) 3
        = [genRequestOf [] (("q").toList)] ∧
    queryAnswer envC3 storeEmptyTable (("q").toList) 3
        = envC3.generate (genRequestOf [] (("q").toList)) :=
  empty_hits_still_invokes_generation envC3 storeEmptyTable (("q").toList) 3 [] rfl rfl

/-- C3 counterexample: on empty hits the gateway is called once, not never,
and the answer is whatever the generation service returned, not a fixed
statement that the knowledge base has no relevant information. -/
theorem empty_hits_generation_counterexample :
    queryReferences envC3 storeEmptyTable (("q").toList) 3 = [] ∧
    (queryGenRequests envC3 storeEmptyTable (("q").toList) 3).length = 1 ∧
    queryAnswer envC3 storeEmptyTable (("q").toList) 3 = "GATEWAY OUTPUT" :=
  ⟨rfl, rfl, rfl⟩

/-- C4: for every non-empty text, every embedding oracle and every
threshold, the chunker returns a non-empty chunk sequence, and the sentence
units of the chunk groups, concatenated in output order, are exactly the
sentence-unit sequence of the input: no unit is dropped, duplicated or
reordered, and the final open chunk is always emitted. -/
theorem chunking_reconstructs_units (text : List Char)
    (embed : List Char → List ℝ) (thr : ℝ) (h : text ≠ []) :
    semantic_chunking text embed thr ≠ [] ∧
    (semanticGroupsOf text embed thr).flatten = splitDotSpace text := by
  obtain ⟨s, rest, hsr⟩ := List.exists_cons_of_ne_nil (splitDotSpace_ne_nil text)
  constructor
  · simp only [semantic_chunking, semanticGroupsOf, semanticGroups, hsr]
    simp [groupRec_ne_nil]
  · simp only [semanticGroupsOf, semanticGroups, hsr]
    rw [groupRec_flatten]
    have hlen : rest.length ≤ (simsOf text embed).length := by
      rw [simsOf_length, hsr]
      simp
    rw [List.map_fst_zip rest (simsOf text embed) hlen]
    simp

/-- C4 witness: the reconstruction statement at a concrete two-sentence
text. -/
theorem chunking_reconstructs_units_witness :
    semantic_chunking ['a', '.', ' ', 'b'] embedOne (7/10) ≠ [] ∧
    (semanticGroupsOf ['a', '.', ' ', 'b'] embedOne (7/10)).flatten
      = splitDotSpace ['a', '.', ' ', 'b'] :=
  chunking_reconstructs_units ['a', '.', ' ', 'b'] embedOne (7/10) (by decide)

/-- C5: ingest builds the whole per-document record list in memory before
touching the store, and the store write is one atomic batched call, so if
the embedding computation or the store write fails the run reports the
failure and the store is returned exactly as it was before ingest started:
no chunk of the document becomes queryable. -/
theorem ingest_atomic_per_document (env : IngestEnv) (s : Store)
    (chunks : List (List Char)) (filename : String) (page : ℕ)
    (e : IngestError)
    (h : (ingest env s chunks filename page).2 = some e) :
    (ingest env s chunks filename page).1 = s := by
  cases hb : buildData env filename page chunks with
  | error e2 => simp [ingest, hb]
  | ok data =>
      by_cases hw : env.writeOk
      · exfalso
        cases ht : s.table with
        | none => simp [ingest, hb, hw, ht] at h
        | some t => simp [ingest, hb, hw, ht] at h
      · simp [ingest, hb, hw]

/-- C5 witness: a failing embedding call leaves the store untouched. -/
theorem ingest_atomic_witness :
    (ingest envFailEmbed ⟨some []⟩ [("a").toList] "f" 0).1 = ⟨some []⟩ :=
  ingest_atomic_per_document envFailEmbed ⟨some []⟩ [("a").toList] "f" 0
    IngestError.embedFailed rfl

/-- C6: evaluating the code at the failing input, the empty raw text. The
chunker returns the single empty chunk instead of failing: splitting the
empty string yields one empty unit, the embedding gateway is then called on
it, and the full ingest path succeeds, writing exactly one chunk with empty
text into the store, contradicting the claimed input-validation error with
zero chunks written. -/
theorem empty_text_ingest_code_eval :
    semantic_chunking [] embedOne (7/10) = [[]] ∧
    ingestDocument embedOne (7/10) envOkIngest ⟨none⟩ [] "doc.txt"
      = (⟨some [⟨[(1:ℝ)], [], "doc.txt", 0⟩]⟩, none) ∧
    chunkCount (ingestDocument embedOne (7/10) envOkIngest ⟨none⟩ [] "doc.txt").1 = 1 :=
  ⟨rfl, rfl, rfl⟩

/-- C7: evaluating the code, the single generation request issued by any
successful query carries the hardcoded model name llama3.2 whatever the
collaborators, the store contents, the question or top_k are, and the
request record has no temperature at all, because the source passes only
model, prompt and stream to the generation call; no configuration value can
influence it. -/
theorem generation_model_hardcoded (env : QueryEnv) (s : Store)
    (user_input : List Char) (top_k : ℕ) (tbl : DocTable)
    (h : s.table = some tbl) :
    (queryGenRequests env s user_input top_k).map (fun r => r.model)
      = ["llama3.2"] := by
  simp [queryGenRequests, open_table, h, genRequestOf]

/-- C7 witness: the hardcoded model name at concrete collaborators. -/
theorem generation_model_hardcoded_witness :
    (queryGenRequests envC7 storeEmptyTable (("q").toList) 3).map (fun r => r.model)
      = ["llama3.2"] :=
  generation_model_hardcoded envC7 storeEmptyTable (("q").toList) 3 [] rfl

/-- C8 (amended): every Reference score is the raw distance column exactly
as the store reported it, with no inversion or negation, so with a distance
metric a smaller score means a more similar chunk. -/
theorem reference_score_is_raw_distance (env : QueryEnv) (s : Store)
    (user_input : List Char) (top_k : ℕ) (tbl : DocTable)
    (h : s.table = some tbl) :
    (queryReferences env s user_input top_k).map (fun r => r.score)
      = (env.search tbl (env.embeddings user_input) top_k).map (fun r => r.distance) := by
  simp [queryReferences, query, open_table, h]

/-- C8 witness: the amended statement at concrete collaborators. -/
theorem reference_score_witness :
    (queryReferences envC8 storeEmptyTable (("q").toList) 3).map (fun r => r.score)
      = (envC8.search [] (envC8.embeddings (("q").toList)) 3).map (fun r => r.distance) :=
  reference_score_is_raw_distance envC8 storeEmptyTable (("q").toList) 3 [] rfl

/-- C8 counterexample: with two hits at distances 1 and 2, the reported
scores are 1 and 2, identical to the raw distances; the first hit is the
nearer, more similar chunk, yet its score is not the larger one, so no
inversion into a higher-is-better similarity took place. -/
theorem score_not_inverted_counterexample :
    (queryReferences envC8 storeEmptyTable (("q").toList) 3).map (fun r => r.score)
        = (envC8.search [] [] 3).map (fun r => r.distance) ∧
    (queryReferences envC8 storeEmptyTable (("q").toList) 3).map (fun r => r.score)
        = [1, 2] ∧
    ¬ ((2 : ℚ) ≤ 1) :=
  ⟨rfl, rfl, by norm_num⟩

/-- C9 (amended): for a fixed text and fixed embeddings the chunk count is
monotonically non-decreasing in the threshold and bounded above by the
sentence count, and threshold 0 yields exactly one chunk provided every
consecutive similarity is nonnegative; without that proviso the threshold-0
part fails, since cosine similarity can be negative. -/
theorem chunk_count_monotone (text : List Char) (embed : List Char → List ℝ)
    (t1 t2 : ℝ) (h : t1 ≤ t2) :
    (semantic_chunking text embed t1).length
        ≤ (semantic_chunking text embed t2).length ∧
    (semantic_chunking text embed t2).length ≤ (splitDotSpace text).length ∧
    ((∀ x ∈ simsOf text embed, (0:ℝ) ≤ x) →
      (semantic_chunking text embed 0).length = 1) := by
  refine ⟨?_, ?_, ?_⟩
  · rw [chunking_length, chunking_length]
    have hc : ((splitDotSpace text).tail.zip (simsOf text embed)).countP
          (fun p => decide (p.2 < t1))
        ≤ ((splitDotSpace text).tail.zip (simsOf text embed)).countP
          (fun p => decide (p.2 < t2)) := by
      apply List.countP_mono_left
      intro x _ hx
      simp only [decide_eq_true_eq] at hx ⊢
      exact lt_of_lt_of_le hx h
    omega
  · rw [chunking_length]
    have h1 : ((splitDotSpace text).tail.zip (simsOf text embed)).countP
          (fun p => decide (p.2 < t2))
        ≤ ((splitDotSpace text).tail.zip (simsOf text embed)).length :=
      List.countP_le_length _
    have h2 : ((splitDotSpace text).tail.zip (simsOf text embed)).length
        ≤ (splitDotSpace text).tail.length := by
      rw [List.length_zip]
      omega
    have h3 : (splitDotSpace text).length ≠ 0 := by
      simpa using splitDotSpace_ne_nil text
    simp only [List.length_tail] at h2
    omega
  · intro hpos
    rw [chunking_length]
    have hz : ((splitDotSpace text).tail.zip (simsOf text embed)).countP
        (fun p => decide (p.2 < 0)) = 0 := by
      rw [List.countP_eq_zero]
      intro a ha
      obtain ⟨x, y⟩ := a
      have hy : y ∈ simsOf text embed := (List.of_mem_zip ha).2
      simp only [decide_eq_true_eq]
      exact not_lt.2 (hpos y hy)
    omega

/-- C9 witness: the amended statement at a concrete one-sentence text with
thresholds 0 and 1. -/
theorem chunk_count_monotone_witness :
    ((semantic_chunking ['a'] embedOne 0).length
        ≤ (semantic_chunking ['a'] embedOne 1).length) ∧
    ((semantic_chunking ['a'] embedOne 1).length ≤ (splitDotSpace ['a']).length) ∧
    ((∀ x ∈ simsOf ['a'] embedOne, (0:ℝ) ≤ x) →
      (semantic_chunking ['a'] embedOne 0).length = 1) :=
  chunk_count_monotone ['a'] embedOne 0 1 zero_le_one

/-- C9 counterexample: a two-sentence text whose sentences embed to opposite
vectors has consecutive cosine similarity -1, which is below threshold 0, so
the chunker emits two chunks at threshold 0, not one. -/
theorem threshold_zero_two_chunks :
    (semantic_chunking ['a', '.', ' ', 'b'] embedC9 0).length = 2 := by
  have hsims : simsOf ['a', '.', ' ', 'b'] embedC9
      = [cosineSim [(1:ℝ)] [(-1:ℝ)]] := rfl
  have hgroups : semanticGroupsOf ['a', '.', ' ', 'b'] embedC9 0
      = [[['a']], [['b']]] := by
    rw [semanticGroupsOf, hsims, cosine_opposite]
    show groupRec 0 [['a']] ([['b']].zip [(-1:ℝ)]) = _
    rw [show ([['b']] : List (List Char)).zip [(-1:ℝ)] = [(['b'], (-1:ℝ))] from rfl]
    rw [groupRec, if_pos (by norm_num : (-1:ℝ) < 0)]
    rfl
  rw [semantic_chunking, hgroups]
  rfl

/-- C10: the chunker is total: for every input text, the empty string
included, it returns at least one chunk (the first-unit access cannot fail
because splitting always yields a non-empty unit list), and for a text with
no dot-space separator the result is exactly one chunk equal to the input
text verbatim. -/
theorem chunker_total_no_separator (embed : List Char → List ℝ) (thr : ℝ) :
    (∀ text, semantic_chunking text embed thr ≠ []) ∧
    (∀ text, hasDotSpace text = false → semantic_chunking text embed thr = [text]) := by
  constructor
  · intro text
    obtain ⟨s, rest, hsr⟩ := List.exists_cons_of_ne_nil (splitDotSpace_ne_nil text)
    simp only [semantic_chunking, semanticGroupsOf, semanticGroups, hsr]
    simp [groupRec_ne_nil]
  · intro text h
    have hsp : splitDotSpace text = [text] := splitDotSpace_no_sep text h
    have hsims : simsOf text embed = [] := by
      rw [simsOf, hsp]
      rfl
    rw [semantic_chunking, semanticGroupsOf, hsp, hsims]
    show [joinDotSpace [text]] = [text]
    simp [joinDotSpace, List.intercalate]

/-- C10 witness: a separator-free text is returned as the single chunk. -/
theorem chunker_total_witness :
    semantic_chunking ['h', 'i'] embedOne (7/10) = [['h', 'i']] :=
  (chunker_total_no_separator embedOne (7/10)).2 ['h', 'i'] rfl
